import Mathlib

/-!
# mui-color: ColorButton and ColorPalette

A shallow embedding of `src/components/ColorButton.jsx` and
`src/components/ColorPalette.jsx`.

* JavaScript values are the inductive `JSVal`; a number is a finite double, kept as the
  rational it denotes, and `+`, `-` and `/` round their exact result to binary64
  (`roundDouble`: nearest, ties to even, gradual underflow).
* Objects are property lists in key order (`Obj`), read with `Obj.get` and written with
  `Obj.set`; the object spread `{...a, ...b}` is `Obj.spread a b`.
* The helpers imported from `../helpers` (`validateColor`, `useTranslate`) are not part of
  the two components and are taken as parameters (`Helpers`).
* A React element is the data it is created with; an event handler is a transformer of an
  abstract state `σ`, so that a callback invocation is visible as its effect on `σ`.
-/

set_option autoImplicit false

namespace MuiColor

/-! ## JavaScript values and objects -/

/-- JavaScript values that reach the two components. -/
inductive JSVal where
  | undefined : JSVal
  | null : JSVal
  | bool (b : Bool) : JSVal
  | num (q : ℚ) : JSVal
  | str (s : String) : JSVal
  | obj (props : List (String × JSVal)) : JSVal

/-- An object: its own enumerable properties, in key order. -/
abbrev Obj := List (String × JSVal)

/-- ToBoolean: the values that count as true in `a || b`, `a ? b : c` and `if (a)`. -/
def truthy : JSVal → Bool
  | .undefined => false
  | .null => false
  | .bool b => b
  | .num q => decide (q ≠ 0)
  | .str s => decide (s ≠ "")
  | .obj _ => true

/-- The operator `a || b`. -/
def jsOr (a b : JSVal) : JSVal := if truthy a then a else b

/-- A prop that is either a string or omitted (`undefined`). -/
def ofOptStr : Option String → JSVal
  | some s => .str s
  | none => .undefined

/-- Round to the nearest integer, ties to the even one. -/
def roundHalfEven (x : ℚ) : ℤ :=
  let f := ⌊x⌋
  let r := x - f
  if r < 1 / 2 then f
  else if 1 / 2 < r then f + 1
  else if f % 2 = 0 then f else f + 1

/-- The exponent of the unit in the last place of the doubles around `x`: 52 below the
binary exponent of `x`, and never below -1074 (subnormal numbers). -/
def ulpExp (x : ℚ) : ℤ := max (Int.log 2 |x| - 52) (-1074)

/-- The double nearest to `x`, ties to even: the result of an arithmetic operation whose
exact value is `x`. The exponent is not bounded above: no operation of the two
components overflows on finite operands. -/
def roundDouble (x : ℚ) : ℚ := (roundHalfEven (x / 2 ^ ulpExp x) : ℚ) * 2 ^ ulpExp x

/-- The finite values of the Number type: the rationals that rounding leaves unchanged,
below 2^1024 in absolute value. -/
def IsDouble (a : ℚ) : Prop := roundDouble a = a ∧ |a| < 2 ^ 1024

instance IsDouble.decidable (a : ℚ) : Decidable (IsDouble a) := by
  unfold IsDouble
  infer_instance

/-- An integer of at most 53 bits times a power of two not below 2^-1074. -/
def Representable (a : ℚ) : Prop := ∃ m e : ℤ, |m| ≤ 2 ^ 53 ∧ -1074 ≤ e ∧ a = m * 2 ^ e

/-- The operator `a - b` on numbers. -/
def jsSub (a b : ℚ) : ℚ := roundDouble (a - b)

/-- The operator `a + b` on numbers. -/
def jsAdd (a b : ℚ) : ℚ := roundDouble (a + b)

/-- The operator `a / b` on numbers, for a divisor other than zero. -/
def jsDiv (a b : ℚ) : ℚ := roundDouble (a / b)

/-- Number::toString. An integer below 2^53 in absolute value prints as its decimal
digits; every other number is printed by the parameter `frac`. -/
def numToString (frac : ℚ → String) (q : ℚ) : String :=
  if q.den = 1 ∧ q.num.natAbs < 2 ^ 53 then toString q.num else frac q

/-- ToString, as applied to a substitution of a template literal. -/
def toStr (frac : ℚ → String) : JSVal → String
  | .undefined => "undefined"
  | .null => "null"
  | .bool true => "true"
  | .bool false => "false"
  | .num q => numToString frac q
  | .str s => s
  | .obj _ => "[object Object]"

namespace Obj

/-- The names of the own properties, `Object.keys(o)`. -/
def keys (o : Obj) : List String := o.map Prod.fst

/-- Own property lookup; `none` when `k` is not a key of `o`. -/
def get (k : String) : Obj → Option JSVal
  | [] => none
  | (k', v) :: rest => if k' = k then some v else get k rest

/-- The expression `o[k]`: the property value, `undefined` when `k` is not a key. -/
def index (o : Obj) (k : String) : JSVal := (get k o).getD .undefined

/-- Define or overwrite the property `k`: an existing key keeps its place. -/
def set (k : String) (v : JSVal) : Obj → Obj
  | [] => [(k, v)]
  | (k', v') :: rest => if k' = k then (k, v) :: rest else (k', v') :: set k v rest

/-- The object literal `{...a, ...b}`: the properties of `b` are copied over `a`,
one after the other. -/
def spread (a b : Obj) : Obj := b.foldl (fun acc kv => set kv.1 kv.2 acc) a

end Obj

/-! ## The helpers the components import -/

/-- Modelled from the spec: the `css` field of a canonical colour, read by `ColorButton`
as `color.css.backgroundColor` (`helpers/colorTool` is not among the sources). -/
structure Css where
  backgroundColor : JSVal

/-- Modelled from the spec: the canonical colour `{css, hsl, alpha, name, error}` returned
by `ColorTool.validateColor` (`helpers/colorTool` is not among the sources), with the
fields `ColorButton` reads. -/
structure Color where
  css : Css
  hsl : ℚ × ℚ × ℚ
  alpha : ℚ
  name : String
  error : Bool

/-- What the components import from `../helpers`: `ColorTool.validateColor`, and the
`t` and `i18n.language` returned by `useTranslate()`; `frac` prints the numbers
that are not integers. -/
structure Helpers where
  validateColor : JSVal → Bool → (JSVal → JSVal) → String → Color
  t : JSVal → JSVal
  language : String
  frac : ℚ → String

/-! ## ColorButton -/

/-- The props of `ColorButton`; `none` is an omitted (`undefined`) prop. `rest` and
`onClick` are the remaining props collected by `...props`. -/
structure ColorButtonProps (σ : Type) where
  color : JSVal
  size : Option ℚ := none
  borderWidth : Option ℚ := none
  borderColor : Option String := none
  forwardRef : Option String := none
  tooltip : Option String := none
  disableAlpha : Option Bool := none
  sx : Option Obj := none
  rest : Obj := []
  onClick : Option (σ → σ) := none

/-- The `StyledButton` element created by `ColorButton`, with its single `<div />` child. -/
structure StyledButton (σ : Type) where
  ref : Option String
  attrs : Obj
  sx : Obj
  onClick : Option (σ → σ)

/-- What `ColorButton` returns: the button, or the button inside
`<Tooltip title><Box component sx>…</Box></Tooltip>`. -/
inductive ButtonTree (σ : Type) where
  | bare (button : StyledButton σ) : ButtonTree σ
  | tooltip (title : JSVal) (boxComponent : String) (boxSx : Obj)
      (button : StyledButton σ) : ButtonTree σ

/-- The button element of a tree returned by `ColorButton`. -/
def ButtonTree.button {σ : Type} : ButtonTree σ → StyledButton σ
  | .bare b => b
  | .tooltip _ _ _ b => b

/-- Whether `ColorButton` returned the button inside a `Tooltip` and a `Box`. -/
def ButtonTree.isWrapped {σ : Type} : ButtonTree σ → Bool
  | .bare _ => false
  | .tooltip _ _ _ _ => true

/-- The effect of a click on the button. -/
def StyledButton.click {σ : Type} (b : StyledButton σ) (s : σ) : σ :=
  match b.onClick with
  | some h => h s
  | none => s

/-- The crossed background of lines 57-61. -/
def crosshatch : String :=
  "\n      linear-gradient(45deg, #ccc 25%, transparent 25%), \n      linear-gradient(135deg, #ccc 25%, transparent 25%),\n      linear-gradient(45deg, transparent 75%, #ccc 75%),\n      linear-gradient(135deg, transparent 75%, #ccc 75%)"

/-- The red stripes of lines 72-78, for a given `size`. -/
def errorStripes (frac : ℚ → String) (size : ℚ) : String :=
  "repeating-linear-gradient(\n        135deg,\n        transparent,\n        transparent "
    ++ numToString frac (jsAdd (jsDiv size 2) 2) ++ "px,\n        #f44336 "
    ++ numToString frac (jsAdd (jsDiv size 2) 2) ++ "px,\n        #f44336 "
    ++ numToString frac (jsAdd (jsDiv size 2) 4) ++ "px\n      )"

/-- Lines 43-44: `let l = color.hsl[2] - 10; if (l < 30) l = color.hsl[2] + 50;`. -/
def hoverLightness (lightness : ℚ) : ℚ :=
  let l := jsSub lightness 10
  if l < 30 then jsAdd lightness 50 else l

/-- Line 46: the template literal of `hoverColor`. -/
def hoverColor (frac : ℚ → String) (color : Color) : String :=
  "hsl(" ++ numToString frac color.hsl.1 ++ ", " ++ numToString frac color.hsl.2.1 ++ "%, "
    ++ numToString frac (hoverLightness color.hsl.2.2) ++ "%, "
    ++ numToString frac color.alpha ++ ")"

/-- Lines 55-90: the properties of the `sx` literal that precede `...sx`. -/
def computedSx (frac : ℚ → String) (color : Color) (size borderWidth : ℚ)
    (borderColor : Option String) : Obj :=
  let cssColor := color.css
  let alpha := color.alpha
  [ ("backgroundImage",
      if color.error || decide (alpha < 1) then .str crosshatch else .str "none"),
    ("backgroundColor", jsOr cssColor.backgroundColor (.str "#fff")),
    ("borderColor", jsOr (ofOptStr borderColor) (.str "#767676")),
    ("borderWidth", jsOr (.num borderWidth) (.num 0)),
    ("width", .num size),
    ("minWidth", .num size),
    ("height", .num size),
    ("& div", .obj
      [ ("content", .str "\" \""),
        ("background", if color.error then .str (errorStripes frac size) else .str "none"),
        ("backgroundColor",
          if color.error then .str "transparent"
          else jsOr cssColor.backgroundColor (.str "#fff")),
        ("width", .num size),
        ("minWidth", .num size),
        ("height", .num size),
        ("border",
          if color.error then .str "2px solid #f44336"
          else .str (toStr frac (jsOr (.num borderWidth) (.num 0)) ++ "px solid "
            ++ toStr frac (jsOr (ofOptStr borderColor) (.str "#767676")))),
        ("borderRadius", .num 4),
        ("padding", .num 0) ]),
    ("&:hover div", .obj [ ("backgroundColor", .str (hoverColor frac color)) ]) ]

/-- Line 40: `const color = ColorTool.validateColor(c, disableAlpha, t, i18n.language)`. -/
def ColorButton.color {σ : Type} (H : Helpers) (p : ColorButtonProps σ) : Color :=
  let disableAlpha := p.disableAlpha.getD false
  H.validateColor p.color disableAlpha H.t H.language

/-- Lines 48-97: the element `component`. The props destructured at line 38 are read
through `ColorButton.defaultProps` (size 24, borderWidth 0, disableAlpha false, sx {}). -/
def ColorButton.component {σ : Type} (H : Helpers) (p : ColorButtonProps σ) : StyledButton σ :=
  let size := p.size.getD 24
  let borderWidth := p.borderWidth.getD 0
  let sx := p.sx.getD []
  let color := ColorButton.color H p
  { ref := p.forwardRef
    attrs := Obj.spread
      [ ("data-testid", .str "colorbutton"),
        ("variant", .str "contained"),
        ("aria-label", .str color.name) ] p.rest
    sx := Obj.spread (computedSx H.frac color size borderWidth p.borderColor) sx
    onClick := p.onClick }

/-- The component `ColorButton` (lines 38-108). -/
def ColorButton {σ : Type} (H : Helpers) (p : ColorButtonProps σ) : ButtonTree σ :=
  let translated := H.t (ofOptStr p.tooltip)
  let component := ColorButton.component H p
  if truthy (ofOptStr p.tooltip) then
    .tooltip translated "div" [("width", .str "min-content")] component
  else
    .bare component

/-! ## ColorPalette -/

/-- The props of `ColorPalette`; `none` is an omitted prop. -/
structure ColorPaletteProps (σ : Type) where
  palette : Obj
  size : Option ℚ := none
  borderWidth : Option ℚ := none
  onSelect : Option (JSVal → JSVal → σ → σ) := none
  disableAlpha : Option Bool := none

/-- Lines 19-22: `handleSelectColor`. -/
def handleSelectColor {σ : Type} (H : Helpers) (p : ColorPaletteProps σ) (name : String)
    (s : σ) : σ :=
  let translatedName := H.t (.str name)
  match p.onSelect with
  | some onSelect => onSelect translatedName (p.palette.index name) s
  | none => s

/-- One `<ColorButton key=… …/>` child of the palette. -/
structure PaletteChild (σ : Type) where
  key : String
  props : ColorButtonProps σ

/-- The `Box` returned by `ColorPalette`. -/
structure PaletteTree (σ : Type) where
  component : String
  sx : Obj
  children : List (PaletteChild σ)

/-- The component `ColorPalette` (lines 17-41); the props are read through
`ColorPalette.defaultProps` (borderWidth 0, size 24, disableAlpha false). -/
def ColorPalette {σ : Type} (H : Helpers) (p : ColorPaletteProps σ) : PaletteTree σ :=
  let size := p.size.getD 24
  let borderWidth := p.borderWidth.getD 0
  let disableAlpha := p.disableAlpha.getD false
  { component := "div"
    sx := [ ("display", .str "flex"), ("flexDirection", .str "row"),
            ("flexWrap", .str "wrap"), ("padding", .str "8px 0 0 8px") ]
    children := (Obj.keys p.palette).map fun name =>
      { key := name
        props :=
          { size := some size
            color := p.palette.index name
            rest := [("className", .str "muicc-palette-button")]
            borderWidth := some borderWidth
            tooltip := some name
            disableAlpha := some disableAlpha
            onClick := some (handleSelectColor H p name)
            sx := some [("m", .str "0 8px 8px 0"), ("p", .num 0)] } } }

/-- The tree React renders for a palette child: `ColorButton` applied to its props. -/
def PaletteChild.render {σ : Type} (H : Helpers) (c : PaletteChild σ) : ButtonTree σ :=
  ColorButton H c.props

/-- The inner `div` rule of a button style: the object stored under `& div`. -/
def innerDiv (sx : Obj) : Obj :=
  match Obj.get "& div" sx with
  | some (.obj d) => d
  | _ => []

/-! ## Sample inputs -/

/-- Helpers whose `validateColor` answers `c`, with the identity translation. -/
def helpersReturning (c : Color) : Helpers :=
  { validateColor := fun _ _ _ _ => c
    t := fun v => v
    language := "en"
    frac := fun _ => "0.5" }

/-- The canonical colour of `red`: valid and opaque. -/
def opaqueRed : Color :=
  { css := { backgroundColor := .str "red" }, hsl := (0, 100, 50), alpha := 1,
    name := "red", error := false }

/-- A valid colour with alpha 1/2. -/
def halfRed : Color :=
  { css := { backgroundColor := .str "rgba(255, 0, 0, 0.5)" }, hsl := (0, 100, 50),
    alpha := 1 / 2, name := "color-ff0000", error := false }

/-- A canonical colour flagged as invalid, carrying a CSS value. -/
def invalidColor : Color :=
  { css := { backgroundColor := .str "notacolor" }, hsl := (0, 0, 0), alpha := 1,
    name := "none", error := true }

/-- A valid opaque canonical colour whose CSS value is the empty string. -/
def emptyCssColor : Color :=
  { css := { backgroundColor := .str "" }, hsl := (0, 0, 0), alpha := 1,
    name := "none", error := false }

/-- A valid opaque colour whose lightness is the greatest double below 40. -/
def nearlyFortyColor : Color :=
  { css := { backgroundColor := .str "hsl(0, 100%, 40%)" },
    hsl := (0, 100, 40 - 2 ^ (-47 : ℤ)), alpha := 1, name := "color-cc0000", error := false }

/-- A callback that records its arguments. -/
def recordCall (name color : JSVal) (log : List (JSVal × JSVal)) : List (JSVal × JSVal) :=
  log ++ [(name, color)]

/-- A palette of two named colours. -/
def samplePalette : Obj := [("red", .str "#f00"), ("blue", .num 255)]

/-! ## Object lemmas -/

theorem Obj.get_set (k k' : String) (v : JSVal) (o : Obj) :
    Obj.get k (Obj.set k' v o) = if k' = k then some v else Obj.get k o := by
  induction o with
  | nil => simp [Obj.set, Obj.get]
  | cons hd tl ih =>
    obtain ⟨a, b⟩ := hd
    by_cases h : a = k'
    · subst h
      by_cases h2 : a = k <;> simp [Obj.set, Obj.get, h2]
    · by_cases h2 : k' = k
      · subst h2
        simp [Obj.set, Obj.get, h, ih]
      · simp only [Obj.set, if_neg h, Obj.get, ih, if_neg h2]

theorem Obj.get_spread_of_not_mem (k : String) (b a : Obj) (h : k ∉ Obj.keys b) :
    Obj.get k (Obj.spread a b) = Obj.get k a := by
  induction b generalizing a with
  | nil => rfl
  | cons hd tl ih =>
    obtain ⟨k1, v1⟩ := hd
    simp only [Obj.keys, List.map_cons, List.mem_cons, not_or] at h
    have h1 : ¬ k1 = k := fun e => h.1 e.symm
    have step : Obj.spread a ((k1, v1) :: tl) = Obj.spread (Obj.set k1 v1 a) tl := rfl
    rw [step, ih (Obj.set k1 v1 a) h.2, Obj.get_set, if_neg h1]

theorem Obj.get_spread_of_mem (k : String) (b a : Obj) (hnd : (Obj.keys b).Nodup)
    (h : k ∈ Obj.keys b) : Obj.get k (Obj.spread a b) = Obj.get k b := by
  induction b generalizing a with
  | nil => simp [Obj.keys] at h
  | cons hd tl ih =>
    obtain ⟨k1, v1⟩ := hd
    have step : Obj.spread a ((k1, v1) :: tl) = Obj.spread (Obj.set k1 v1 a) tl := rfl
    simp only [Obj.keys, List.map_cons, List.nodup_cons] at hnd
    simp only [Obj.keys, List.map_cons, List.mem_cons] at h
    by_cases hk : k1 = k
    · subst hk
      rw [step, Obj.get_spread_of_not_mem k1 tl _ hnd.1, Obj.get_set]
      simp [Obj.get]
    · have hmem : k ∈ Obj.keys tl := by
        rcases h with h | h
        · exact absurd h.symm hk
        · exact h
      rw [step, ih (Obj.set k1 v1 a) hnd.2 hmem]
      simp [Obj.get, hk]

theorem ColorButton.button_sx {σ : Type} (H : Helpers) (p : ColorButtonProps σ) :
    (ColorButton H p).button.sx =
      Obj.spread (computedSx H.frac (ColorButton.color H p) (p.size.getD 24)
        (p.borderWidth.getD 0) p.borderColor) (p.sx.getD []) := by
  unfold ColorButton
  by_cases h : truthy (ofOptStr p.tooltip) = true <;> simp [h, ButtonTree.button, ColorButton.component]

/-! ## Rounding lemmas -/

theorem floor_le_roundHalfEven (x : ℚ) : ⌊x⌋ ≤ roundHalfEven x := by
  unfold roundHalfEven
  simp only
  split_ifs <;> omega

theorem roundHalfEven_le_ceil (x : ℚ) : roundHalfEven x ≤ ⌈x⌉ := by
  unfold roundHalfEven
  simp only
  have hfc : ⌊x⌋ ≤ ⌈x⌉ := Int.floor_le_ceil x
  have key : ¬ (x - ⌊x⌋ < 1 / 2) → ⌊x⌋ + 1 ≤ ⌈x⌉ := by
    intro h
    have h1 : (⌊x⌋ : ℚ) < x := by
      have : (1:ℚ) / 2 ≤ x - ⌊x⌋ := not_lt.mp h
      linarith
    have := Int.lt_ceil.mpr h1
    omega
  split_ifs with h1 h2 h3
  · exact hfc
  · exact key h1
  · exact hfc
  · exact key h1

theorem le_roundHalfEven_of_le (k : ℤ) (y : ℚ) (h : (k : ℚ) ≤ y) : k ≤ roundHalfEven y :=
  le_trans (Int.le_floor.mpr h) (floor_le_roundHalfEven y)

theorem roundHalfEven_le_of_le (k : ℤ) (y : ℚ) (h : y ≤ (k : ℚ)) : roundHalfEven y ≤ k :=
  le_trans (roundHalfEven_le_ceil y) (Int.ceil_le.mpr h)

theorem two_zpow_pos (u : ℤ) : (0 : ℚ) < 2 ^ u := zpow_pos (by norm_num) u

/-- Rounding does not pass below a multiple of the unit in the last place. -/
theorem le_roundDouble_of_multiple (k : ℤ) (x : ℚ) (h : (k : ℚ) * 2 ^ ulpExp x ≤ x) :
    (k : ℚ) * 2 ^ ulpExp x ≤ roundDouble x := by
  have hp := two_zpow_pos (ulpExp x)
  have h1 : (k : ℚ) ≤ x / 2 ^ ulpExp x := (le_div_iff₀ hp).mpr h
  have h2 : k ≤ roundHalfEven (x / 2 ^ ulpExp x) := le_roundHalfEven_of_le k _ h1
  have h3 : (k : ℚ) ≤ (roundHalfEven (x / 2 ^ ulpExp x) : ℚ) := by exact_mod_cast h2
  unfold roundDouble
  exact mul_le_mul_of_nonneg_right h3 hp.le

theorem roundDouble_le_of_multiple (k : ℤ) (x : ℚ) (h : x ≤ (k : ℚ) * 2 ^ ulpExp x) :
    roundDouble x ≤ (k : ℚ) * 2 ^ ulpExp x := by
  have hp := two_zpow_pos (ulpExp x)
  have h1 : x / 2 ^ ulpExp x ≤ (k : ℚ) := (div_le_iff₀ hp).mpr h
  have h2 : roundHalfEven (x / 2 ^ ulpExp x) ≤ k := roundHalfEven_le_of_le k _ h1
  have h3 : (roundHalfEven (x / 2 ^ ulpExp x) : ℚ) ≤ (k : ℚ) := by exact_mod_cast h2
  unfold roundDouble
  exact mul_le_mul_of_nonneg_right h3 hp.le

theorem two_zpow_log_le_abs (x : ℚ) (hx : x ≠ 0) : (2 : ℚ) ^ Int.log 2 |x| ≤ |x| := by
  have h := Int.zpow_log_le_self (b := 2) (r := |x|) (by norm_num) (abs_pos.mpr hx)
  simpa using h

theorem abs_lt_two_zpow_log_succ (x : ℚ) : |x| < (2 : ℚ) ^ (Int.log 2 |x| + 1) := by
  have h := Int.lt_zpow_succ_log_self (b := 2) (by norm_num) |x|
  simpa using h

theorem abs_mul_zpow_le (m e : ℤ) (hm : |m| ≤ 2 ^ 53) :
    |(m : ℚ) * 2 ^ e| ≤ 2 ^ (53 + e) := by
  have h1 : |(m : ℚ)| ≤ 2 ^ 53 := by
    have : ((|m| : ℤ) : ℚ) ≤ ((2 ^ 53 : ℤ) : ℚ) := by exact_mod_cast hm
    simpa using this
  rw [abs_mul, abs_of_pos (two_zpow_pos e), zpow_add₀ (by norm_num : (2 : ℚ) ≠ 0)]
  have : (2 : ℚ) ^ (53 : ℤ) = 2 ^ 53 := by norm_num
  rw [this]
  exact mul_le_mul_of_nonneg_right h1 (two_zpow_pos e).le

theorem mul_zpow_eq_multiple (m e u : ℤ) (h : u ≤ e) :
    ∃ k : ℤ, (k : ℚ) * 2 ^ u = (m : ℚ) * 2 ^ e := by
  refine ⟨m * 2 ^ (e - u).toNat, ?_⟩
  have hn : ((e - u).toNat : ℤ) = e - u := Int.toNat_of_nonneg (by omega)
  have he : e = ((e - u).toNat : ℤ) + u := by omega
  have h2 : (2 : ℚ) ^ e = 2 ^ (e - u).toNat * 2 ^ u := by
    conv_lhs => rw [he]
    rw [zpow_add₀ (by norm_num : (2 : ℚ) ≠ 0), zpow_natCast]
  push_cast
  rw [h2]
  ring

/-- Between a representable number and a greater number `x` lies a multiple of the unit
in the last place of `x`. -/
theorem exists_multiple_of_le (a x : ℚ) (ha : Representable a) (h : a ≤ x) :
    ∃ k : ℤ, a ≤ (k : ℚ) * 2 ^ ulpExp x ∧ (k : ℚ) * 2 ^ ulpExp x ≤ x := by
  obtain ⟨m, e, hm, he, rfl⟩ := ha
  by_cases hx : x = 0
  · subst hx
    exact ⟨0, by simpa using h, by simp⟩
  by_cases heu : ulpExp x ≤ e
  · obtain ⟨k, hk⟩ := mul_zpow_eq_multiple m e (ulpExp x) heu
    exact ⟨k, by rw [hk], by rw [hk]; exact h⟩
  · have hu : ulpExp x = Int.log 2 |x| - 52 := by
      unfold ulpExp at heu ⊢
      rcases max_cases (Int.log 2 |x| - 52) (-1074) with ⟨h1, _⟩ | ⟨h1, _⟩
      · exact h1
      · rw [h1] at heu
        omega
    have hB : (2 : ℚ) ^ (ulpExp x + 52) ≤ |x| := by
      have := two_zpow_log_le_abs x hx
      rw [hu]
      simpa using this
    have hA : |(m : ℚ) * 2 ^ e| ≤ 2 ^ (ulpExp x + 52) :=
      le_trans (abs_mul_zpow_le m e hm) (zpow_le_zpow_right₀ (by norm_num) (by omega))
    have hk : (((2 : ℤ) ^ 52 : ℤ) : ℚ) * 2 ^ ulpExp x = 2 ^ (ulpExp x + 52) := by
      rw [zpow_add₀ (by norm_num : (2 : ℚ) ≠ 0)]
      norm_num
      ring
    rcases lt_or_gt_of_ne hx with hneg | hpos
    · refine ⟨-(2 : ℤ) ^ 52, ?_, ?_⟩
      · have : x ≤ -(2 : ℚ) ^ (ulpExp x + 52) := by
          rw [abs_of_neg hneg] at hB
          linarith
        push_cast at hk ⊢
        linarith
      · have h1 : -(2 : ℚ) ^ (ulpExp x + 52) ≤ (m : ℚ) * 2 ^ e := by
          have := neg_abs_le ((m : ℚ) * 2 ^ e)
          linarith
        push_cast at hk ⊢
        linarith
    · refine ⟨(2 : ℤ) ^ 52, ?_, ?_⟩
      · have := le_abs_self ((m : ℚ) * 2 ^ e)
        rw [hk]
        linarith
      · rw [hk, abs_of_pos hpos] at *
        exact hB

theorem exists_multiple_of_ge (a x : ℚ) (ha : Representable a) (h : x ≤ a) :
    ∃ k : ℤ, x ≤ (k : ℚ) * 2 ^ ulpExp x ∧ (k : ℚ) * 2 ^ ulpExp x ≤ a := by
  obtain ⟨m, e, hm, he, rfl⟩ := ha
  by_cases hx : x = 0
  · subst hx
    exact ⟨0, by simp, by simpa using h⟩
  by_cases heu : ulpExp x ≤ e
  · obtain ⟨k, hk⟩ := mul_zpow_eq_multiple m e (ulpExp x) heu
    exact ⟨k, by rw [hk]; exact h, by rw [hk]⟩
  · have hu : ulpExp x = Int.log 2 |x| - 52 := by
      unfold ulpExp at heu ⊢
      rcases max_cases (Int.log 2 |x| - 52) (-1074) with ⟨h1, _⟩ | ⟨h1, _⟩
      · exact h1
      · rw [h1] at heu
        omega
    have hB : (2 : ℚ) ^ (ulpExp x + 52) ≤ |x| := by
      have := two_zpow_log_le_abs x hx
      rw [hu]
      simpa using this
    have hA : |(m : ℚ) * 2 ^ e| ≤ 2 ^ (ulpExp x + 52) :=
      le_trans (abs_mul_zpow_le m e hm) (zpow_le_zpow_right₀ (by norm_num) (by omega))
    have hk : (((2 : ℤ) ^ 52 : ℤ) : ℚ) * 2 ^ ulpExp x = 2 ^ (ulpExp x + 52) := by
      rw [zpow_add₀ (by norm_num : (2 : ℚ) ≠ 0)]
      norm_num
      ring
    rcases lt_or_gt_of_ne hx with hneg | hpos
    · refine ⟨-(2 : ℤ) ^ 52, ?_, ?_⟩
      · have : x ≤ -(2 : ℚ) ^ (ulpExp x + 52) := by
          rw [abs_of_neg hneg] at hB
          linarith
        push_cast at hk ⊢
        linarith
      · have h1 : -(2 : ℚ) ^ (ulpExp x + 52) ≤ (m : ℚ) * 2 ^ e := by
          have := neg_abs_le ((m : ℚ) * 2 ^ e)
          linarith
        push_cast at hk ⊢
        linarith
    · refine ⟨(2 : ℤ) ^ 52, ?_, ?_⟩
      · have h2 := le_abs_self ((m : ℚ) * 2 ^ e)
        rw [hk]
        linarith
      · have h1 : (2 : ℚ) ^ (ulpExp x + 52) ≤ x := by
          rw [abs_of_pos hpos] at hB
          exact hB
        rw [hk]
        linarith

/-- Rounding does not pass a representable number: from below. -/
theorem le_roundDouble (a x : ℚ) (ha : Representable a) (h : a ≤ x) : a ≤ roundDouble x := by
  obtain ⟨k, h1, h2⟩ := exists_multiple_of_le a x ha h
  exact le_trans h1 (le_roundDouble_of_multiple k x h2)

/-- Rounding does not pass a representable number: from above. -/
theorem roundDouble_le (a x : ℚ) (ha : Representable a) (h : x ≤ a) : roundDouble x ≤ a := by
  obtain ⟨k, h1, h2⟩ := exists_multiple_of_ge a x ha h
  exact le_trans (roundDouble_le_of_multiple k x h1) h2

theorem roundDouble_eq_self (a : ℚ) (ha : Representable a) : roundDouble a = a :=
  le_antisymm (roundDouble_le a a ha le_rfl) (le_roundDouble a a ha le_rfl)

theorem representable_int (n : ℤ) (h : |n| ≤ 2 ^ 53) : Representable (n : ℚ) :=
  ⟨n, 0, h, by norm_num, by simp⟩

theorem IsDouble.representable {a : ℚ} (h : IsDouble a) : Representable a := by
  have hp := two_zpow_pos (ulpExp a)
  have hu1 : Int.log 2 |a| - 52 ≤ ulpExp a := le_max_left _ _
  have hu2 : -1074 ≤ ulpExp a := le_max_right _ _
  have h53 : (2 : ℚ) ^ (53 : ℤ) = 9007199254740992 := by norm_num
  have hlt : |a| < 9007199254740992 * 2 ^ ulpExp a := by
    rw [← h53, ← zpow_add₀ (by norm_num : (2 : ℚ) ≠ 0)]
    exact lt_of_lt_of_le (abs_lt_two_zpow_log_succ a)
      (zpow_le_zpow_right₀ (by norm_num) (by omega))
  have habs := abs_lt.mp hlt
  refine ⟨roundHalfEven (a / 2 ^ ulpExp a), ulpExp a, ?_, hu2, h.1.symm⟩
  rw [abs_le]
  constructor
  · apply le_roundHalfEven_of_le
    rw [le_div_iff₀ hp]
    push_cast
    linarith [habs.1]
  · apply roundHalfEven_le_of_le
    rw [div_le_iff₀ hp]
    push_cast
    linarith [habs.2]

/-- A representable number above `2 ^ p` is a multiple of `2 ^ (p - 52)`. -/
theorem Representable.multiple_of_lt {a : ℚ} (ha : Representable a) (p : ℤ)
    (h : (2 : ℚ) ^ p < a) : ∃ k : ℤ, (k : ℚ) * 2 ^ (p - 52) = a := by
  obtain ⟨m, e, hm, _, rfl⟩ := ha
  have h1 : (2 : ℚ) ^ p < 2 ^ (53 + e) :=
    lt_of_lt_of_le (lt_of_lt_of_le h (le_abs_self _)) (abs_mul_zpow_le m e hm)
  have h2 : p < 53 + e := (zpow_lt_zpow_iff_right₀ (by norm_num : (1 : ℚ) < 2)).mp h1
  exact mul_zpow_eq_multiple m e (p - 52) (by omega)

/-- The greatest double below 40 is `40 - 2 ^ (-47)`. -/
theorem le_pred_forty (L : ℚ) (hL : Representable L) (h : L < 40) :
    L ≤ 40 - 2 ^ (-47 : ℤ) := by
  by_cases h32 : L ≤ 32
  · have : (32 : ℚ) ≤ 40 - 2 ^ (-47 : ℤ) := by norm_num
    linarith
  · have h5 : (2 : ℚ) ^ (5 : ℤ) < L := by
      have : (2 : ℚ) ^ (5 : ℤ) = 32 := by norm_num
      rw [this]
      exact not_le.mp h32
    obtain ⟨k, hk⟩ := hL.multiple_of_lt 5 h5
    have hpos : (0 : ℚ) < 2 ^ (5 - 52 : ℤ) := two_zpow_pos _
    have e47 : (2 : ℚ) ^ (5 - 52 : ℤ) = 2 ^ (-47 : ℤ) := by norm_num
    have hk1 : (k : ℚ) < 40 * 2 ^ 47 := by
      have : (k : ℚ) * 2 ^ (-47 : ℤ) < 40 := by rw [← e47, hk]; exact h
      have h2 : (2 : ℚ) ^ (-47 : ℤ) = 1 / 2 ^ 47 := by norm_num
      rw [h2] at this
      have h3 : (0 : ℚ) < 2 ^ 47 := by norm_num
      rw [mul_one_div, div_lt_iff₀ h3] at this
      exact this
    have hk2 : k < 40 * 2 ^ 47 := by exact_mod_cast hk1
    have hk3 : k ≤ 40 * 2 ^ 47 - 1 := by omega
    have hk4 : (k : ℚ) ≤ 40 * 2 ^ 47 - 1 := by exact_mod_cast hk3
    rw [← hk, e47]
    have h2 : (2 : ℚ) ^ (-47 : ℤ) = 1 / 2 ^ 47 := by norm_num
    rw [h2]
    have h3 : (0 : ℚ) < 2 ^ 47 := by norm_num
    rw [mul_one_div, div_le_iff₀ h3]
    have : ((40 : ℚ) - 1 / 2 ^ 47) * 2 ^ 47 = 40 * 2 ^ 47 - 1 := by
      field_simp
    rw [this]
    exact hk4

theorem representable_pred_thirty : Representable (30 - 2 ^ (-47 : ℤ)) :=
  ⟨30 * 2 ^ 47 - 1, -47, by norm_num, by norm_num, by norm_num⟩

theorem isDouble_of_representable {a : ℚ} (h : Representable a) (hb : |a| < 2 ^ 1024) :
    IsDouble a := ⟨roundDouble_eq_self a h, hb⟩

theorem isDouble_int (n : ℤ) (h : |n| ≤ 2 ^ 53) : IsDouble (n : ℚ) := by
  refine isDouble_of_representable (representable_int n h) ?_
  have h1 : |(n : ℚ)| ≤ 2 ^ 53 := by
    have : ((|n| : ℤ) : ℚ) ≤ ((2 ^ 53 : ℤ) : ℚ) := by exact_mod_cast h
    simpa using this
  have h2 : (2 : ℚ) ^ 53 < 2 ^ 1024 := by norm_num
  exact lt_of_le_of_lt h1 h2

theorem abs_roundHalfEven_sub_le (y : ℚ) : |(roundHalfEven y : ℚ) - y| ≤ 1 / 2 := by
  have h1 := Int.floor_le y
  have h2 := Int.lt_floor_add_one y
  unfold roundHalfEven
  simp only
  rw [abs_le]
  split_ifs with a b c
  · constructor <;> linarith
  · push_cast
    constructor <;> linarith
  · have hb : y - ⌊y⌋ = 1 / 2 := le_antisymm (not_lt.mp b) (not_lt.mp a)
    constructor <;> linarith
  · have hb : y - ⌊y⌋ = 1 / 2 := le_antisymm (not_lt.mp b) (not_lt.mp a)
    push_cast
    constructor <;> linarith

/-- The rounding error is at most half a unit in the last place. -/
theorem abs_roundDouble_sub_le (x : ℚ) : |roundDouble x - x| ≤ 2 ^ ulpExp x / 2 := by
  have hp := two_zpow_pos (ulpExp x)
  have h := abs_roundHalfEven_sub_le (x / 2 ^ ulpExp x)
  have e : roundDouble x - x
      = ((roundHalfEven (x / 2 ^ ulpExp x) : ℚ) - x / 2 ^ ulpExp x) * 2 ^ ulpExp x := by
    unfold roundDouble
    field_simp
  rw [e, abs_mul, abs_of_pos hp]
  calc |(roundHalfEven (x / 2 ^ ulpExp x) : ℚ) - x / 2 ^ ulpExp x| * 2 ^ ulpExp x
      ≤ 1 / 2 * 2 ^ ulpExp x := mul_le_mul_of_nonneg_right h hp.le
    _ = 2 ^ ulpExp x / 2 := by ring

theorem ulpExp_le_of_lt (x : ℚ) (p : ℤ) (hx : 0 < x) (h : x < 2 ^ p) (hp : -1021 ≤ p) :
    ulpExp x ≤ p - 53 := by
  have h1 : Int.log 2 |x| < p := by
    rw [abs_of_pos hx]
    apply (Int.lt_zpow_iff_log_lt (b := 2) (by norm_num) hx).mp
    simpa using h
  unfold ulpExp
  exact max_le (by omega) (by omega)

theorem hoverLightness_of_ge (L : ℚ) (h : 40 ≤ L) : hoverLightness L = jsSub L 10 := by
  have h30 : (30 : ℚ) ≤ jsSub L 10 := by
    have := le_roundDouble ((30 : ℤ) : ℚ) (L - 10) (representable_int 30 (by norm_num))
      (by push_cast; linarith)
    simpa [jsSub] using this
  unfold hoverLightness
  simp only
  rw [if_neg (not_lt.mpr h30)]

theorem jsSub_ten_lt_thirty (L : ℚ) (hL : IsDouble L) (h : L < 40) : jsSub L 10 < 30 := by
  have h1 := le_pred_forty L hL.representable h
  have h2 : jsSub L 10 ≤ 30 - 2 ^ (-47 : ℤ) :=
    roundDouble_le _ (L - 10) representable_pred_thirty (by linarith)
  have h3 : (0 : ℚ) < 2 ^ (-47 : ℤ) := two_zpow_pos _
  linarith

theorem hoverLightness_of_lt (L : ℚ) (hL : IsDouble L) (h : L < 40) :
    hoverLightness L = jsAdd L 50 := by
  unfold hoverLightness
  simp only
  rw [if_pos (jsSub_ten_lt_thirty L hL h)]

theorem hoverLightness_bounds (L : ℚ) (hL : IsDouble L) (h0 : 0 ≤ L) (h100 : L ≤ 100) :
    30 ≤ hoverLightness L ∧ hoverLightness L ≤ 90 ∧ hoverLightness L ≠ L := by
  by_cases h : L < 40
  · rw [hoverLightness_of_lt L hL h]
    have h1 : (50 : ℚ) ≤ jsAdd L 50 := by
      have := le_roundDouble ((50 : ℤ) : ℚ) (L + 50) (representable_int 50 (by norm_num))
        (by push_cast; linarith)
      simpa [jsAdd] using this
    have h2 : jsAdd L 50 ≤ 90 := by
      have := roundDouble_le ((90 : ℤ) : ℚ) (L + 50) (representable_int 90 (by norm_num))
        (by push_cast; linarith)
      simpa [jsAdd] using this
    refine ⟨by linarith, h2, fun e => ?_⟩
    linarith
  · have h40 : 40 ≤ L := not_lt.mp h
    rw [hoverLightness_of_ge L h40]
    have h1 : (30 : ℚ) ≤ jsSub L 10 := by
      have := le_roundDouble ((30 : ℤ) : ℚ) (L - 10) (representable_int 30 (by norm_num))
        (by push_cast; linarith)
      simpa [jsSub] using this
    have h2 : jsSub L 10 ≤ 90 := by
      have := roundDouble_le ((90 : ℤ) : ℚ) (L - 10) (representable_int 90 (by norm_num))
        (by push_cast; linarith)
      simpa [jsSub] using this
    have hc1 : ⌈L - 10⌉ ≤ 90 := Int.ceil_le.mpr (by push_cast; linarith)
    have hc2 : (0 : ℤ) ≤ ⌈L - 10⌉ := Int.ceil_nonneg (by linarith)
    have hc3 : ((⌈L - 10⌉ : ℤ) : ℚ) < L - 10 + 1 := Int.ceil_lt_add_one _
    have h3 : jsSub L 10 ≤ ((⌈L - 10⌉ : ℤ) : ℚ) :=
      roundDouble_le _ (L - 10)
        (representable_int _ (by rw [abs_of_nonneg hc2]; omega)) (Int.le_ceil _)
    refine ⟨h1, h2, fun e => ?_⟩
    linarith

/-- For a lightness between 40 and 100 the subtraction of 10 is exact. -/
theorem jsSub_ten_exact (L : ℚ) (hL : IsDouble L) (h40 : 40 ≤ L) (h100 : L ≤ 100) :
    jsSub L 10 = L - 10 := by
  apply roundDouble_eq_self
  by_cases h74 : L ≤ 74
  · have h5 : (2 : ℚ) ^ (5 : ℤ) < L := by norm_num; linarith
    obtain ⟨k, hk⟩ := hL.representable.multiple_of_lt 5 h5
    have e47 : (2 : ℚ) ^ (5 - 52 : ℤ) = 1 / 2 ^ 47 := by norm_num
    have h3 : (0 : ℚ) < 2 ^ 47 := by norm_num
    rw [e47] at hk
    have hkq : (k : ℚ) = L * 2 ^ 47 := by rw [← hk]; field_simp
    have hk1 : (k : ℚ) ≤ 74 * 2 ^ 47 := by rw [hkq]; nlinarith
    have hk2 : (40 : ℚ) * 2 ^ 47 ≤ k := by rw [hkq]; nlinarith
    have hk3 : k ≤ 74 * 2 ^ 47 := by exact_mod_cast hk1
    have hk4 : 40 * 2 ^ 47 ≤ k := by exact_mod_cast hk2
    refine ⟨k - 10 * 2 ^ 47, -47, ?_, by norm_num, ?_⟩
    · rw [abs_le]
      constructor <;> omega
    · push_cast
      rw [hkq]
      norm_num
      ring
  · have h6 : (2 : ℚ) ^ (6 : ℤ) < L := by norm_num; linarith
    obtain ⟨k, hk⟩ := hL.representable.multiple_of_lt 6 h6
    have e46 : (2 : ℚ) ^ (6 - 52 : ℤ) = 1 / 2 ^ 46 := by norm_num
    have h3 : (0 : ℚ) < 2 ^ 46 := by norm_num
    rw [e46] at hk
    have hkq : (k : ℚ) = L * 2 ^ 46 := by rw [← hk]; field_simp
    have hk1 : (k : ℚ) ≤ 100 * 2 ^ 46 := by rw [hkq]; nlinarith
    have hk2 : (40 : ℚ) * 2 ^ 46 ≤ k := by rw [hkq]; nlinarith
    have hk3 : k ≤ 100 * 2 ^ 46 := by exact_mod_cast hk1
    have hk4 : 40 * 2 ^ 46 ≤ k := by exact_mod_cast hk2
    refine ⟨k - 10 * 2 ^ 46, -46, ?_, by norm_num, ?_⟩
    · rw [abs_le]
      constructor <;> omega
    · push_cast
      rw [hkq]
      norm_num
      ring

/-- Below 40 the addition of 50 is off by at most `2 ^ (-47)`. -/
theorem abs_jsAdd_fifty_sub_le (L : ℚ) (h0 : 0 ≤ L) (h : L < 40) :
    |jsAdd L 50 - (L + 50)| ≤ 2 ^ (-47 : ℤ) := by
  have h1 := abs_roundDouble_sub_le (L + 50)
  have h2 : ulpExp (L + 50) ≤ 7 - 53 :=
    ulpExp_le_of_lt (L + 50) 7 (by linarith) (by norm_num; linarith) (by norm_num)
  have h3 : (2 : ℚ) ^ ulpExp (L + 50) ≤ 2 ^ (-46 : ℤ) :=
    zpow_le_zpow_right₀ (by norm_num) (by omega)
  have h4 : (2 : ℚ) ^ (-46 : ℤ) / 2 = 2 ^ (-47 : ℤ) := by norm_num
  have h5 : (2 : ℚ) ^ ulpExp (L + 50) / 2 ≤ 2 ^ (-46 : ℤ) / 2 :=
    div_le_div_of_nonneg_right h3 (by norm_num)
  unfold jsAdd
  exact le_trans h1 (le_trans h5 (le_of_eq h4))

theorem roundHalfEven_tie_odd (f : ℤ) (h : f % 2 = 1) :
    roundHalfEven ((f : ℚ) + 1 / 2) = f + 1 := by
  have hf : ⌊(f : ℚ) + 1 / 2⌋ = f := by
    rw [Int.floor_eq_iff]
    constructor <;> norm_num
  unfold roundHalfEven
  simp only [hf]
  have hr : (f : ℚ) + 1 / 2 - f = 1 / 2 := by ring
  rw [hr]
  have hne : ¬ f % 2 = 0 := by omega
  simp [hne]

theorem ulpExp_eq (x : ℚ) (p : ℤ) (h1 : (2 : ℚ) ^ p ≤ x) (h2 : x < 2 ^ (p + 1))
    (hp : -1022 ≤ p) : ulpExp x = p - 52 := by
  have hx : 0 < x := lt_of_lt_of_le (two_zpow_pos p) h1
  have hlog : Int.log 2 |x| = p := by
    rw [abs_of_pos hx]
    apply le_antisymm
    · have := (Int.lt_zpow_iff_log_lt (b := 2) (x := p + 1) (by norm_num) hx).mp
        (by simpa using h2)
      omega
    · exact (Int.zpow_le_iff_le_log (b := 2) (by norm_num) hx).mp (by simpa using h1)
  unfold ulpExp
  rw [hlog]
  exact max_eq_left (by omega)

/-- The sum `(40 - 2 ^ (-47)) + 50` lies half way between two doubles and rounds to 90. -/
theorem jsAdd_pred_forty_fifty : jsAdd (40 - 2 ^ (-47 : ℤ)) 50 = 90 := by
  have hx : (40 - 2 ^ (-47 : ℤ) : ℚ) + 50 = 90 - 1 / 2 ^ 47 := by norm_num
  have hu : ulpExp (90 - 1 / 2 ^ 47) = -46 := by
    have := ulpExp_eq (90 - 1 / 2 ^ 47) 6 (by norm_num) (by norm_num) (by norm_num)
    simpa using this
  have hq : (90 - 1 / 2 ^ 47 : ℚ) / 2 ^ (-46 : ℤ)
      = ((6333186975989759 : ℤ) : ℚ) + 1 / 2 := by norm_num
  unfold jsAdd roundDouble
  rw [hx, hu, hq, roundHalfEven_tie_odd _ (by decide)]
  norm_num

theorem roundDouble_int (n : ℤ) (h : |n| ≤ 2 ^ 53) : roundDouble (n : ℚ) = n :=
  roundDouble_eq_self _ (representable_int n h)

/-! ## Claims -/

/-- C9: a key named by `sx` has the value `sx` gives it in the final style of the button,
every other key has the value `ColorButton` computed for it (the computed keys being
backgroundImage, backgroundColor, borderColor, borderWidth, width, minWidth, height,
`& div` and `&:hover div`), and with `sx = {}` (or omitted) the final style is exactly
the computed one. -/
theorem sx_overrides_exactly_the_keys_it_names {σ : Type} (H : Helpers)
    (p : ColorButtonProps σ) (sx : Obj) (hsx : p.sx = some sx)
    (hobj : (Obj.keys sx).Nodup) (k : String) :
    (k ∈ Obj.keys sx → Obj.get k (ColorButton H p).button.sx = Obj.get k sx)
    ∧ (k ∉ Obj.keys sx → Obj.get k (ColorButton H p).button.sx =
        Obj.get k (computedSx H.frac (ColorButton.color H p) (p.size.getD 24)
          (p.borderWidth.getD 0) p.borderColor))
    ∧ Obj.keys (computedSx H.frac (ColorButton.color H p) (p.size.getD 24)
          (p.borderWidth.getD 0) p.borderColor) =
        ["backgroundImage", "backgroundColor", "borderColor", "borderWidth", "width",
          "minWidth", "height", "& div", "&:hover div"]
    ∧ (sx = [] → (ColorButton H p).button.sx =
        computedSx H.frac (ColorButton.color H p) (p.size.getD 24)
          (p.borderWidth.getD 0) p.borderColor)
    ∧ (ColorButton H { p with sx := none }).button.sx =
        computedSx H.frac (ColorButton.color H p) (p.size.getD 24)
          (p.borderWidth.getD 0) p.borderColor := by
  refine ⟨fun hk => ?_, fun hk => ?_, rfl, fun he => ?_, ?_⟩
  · rw [ColorButton.button_sx, hsx]
    exact Obj.get_spread_of_mem k sx _ hobj hk
  · rw [ColorButton.button_sx, hsx]
    exact Obj.get_spread_of_not_mem k sx _ hk
  · rw [ColorButton.button_sx, hsx, he]
    rfl
  · rw [ColorButton.button_sx]
    rfl

/-- Witness for C9 at `sx = {backgroundColor: "blue", m: 1}`: the named key is
overridden, the key `width` keeps its computed value. -/
theorem sx_overrides_exactly_the_keys_it_names_witness :
    Obj.get "backgroundColor"
        (ColorButton (helpersReturning opaqueRed)
          ({ color := .str "red",
             sx := some [("backgroundColor", .str "blue"), ("m", .num 1)] } :
            ColorButtonProps Unit)).button.sx = some (.str "blue")
    ∧ Obj.get "width"
        (ColorButton (helpersReturning opaqueRed)
          ({ color := .str "red",
             sx := some [("backgroundColor", .str "blue"), ("m", .num 1)] } :
            ColorButtonProps Unit)).button.sx = some (.num 24) :=
  ⟨(sx_overrides_exactly_the_keys_it_names (helpersReturning opaqueRed)
      ({ color := .str "red",
         sx := some [("backgroundColor", .str "blue"), ("m", .num 1)] } :
        ColorButtonProps Unit)
      [("backgroundColor", .str "blue"), ("m", .num 1)] rfl (by decide)
      "backgroundColor").1 (by decide),
   (sx_overrides_exactly_the_keys_it_names (helpersReturning opaqueRed)
      ({ color := .str "red",
         sx := some [("backgroundColor", .str "blue"), ("m", .num 1)] } :
        ColorButtonProps Unit)
      [("backgroundColor", .str "blue"), ("m", .num 1)] rfl (by decide)
      "width").2.1 (by decide)⟩

/-- C1: when `validateColor` returns a colour with `error = true`, and `sx` supplies no
`backgroundImage` key, the style of the button has the four-gradient grey (#ccc)
crosshatch of lines 57-61 as its `backgroundImage`, never `none`, for every alpha, size,
border, tooltip and disableAlpha. -/
theorem invalid_colour_gets_crosshatch {σ : Type} (H : Helpers) (p : ColorButtonProps σ)
    (herr : (ColorButton.color H p).error = true)
    (hsx : "backgroundImage" ∉ Obj.keys (p.sx.getD [])) :
    Obj.get "backgroundImage" (ColorButton H p).button.sx
      = some (.str "\n      linear-gradient(45deg, #ccc 25%, transparent 25%), \n      linear-gradient(135deg, #ccc 25%, transparent 25%),\n      linear-gradient(45deg, transparent 75%, #ccc 75%),\n      linear-gradient(135deg, transparent 75%, #ccc 75%)")
    ∧ Obj.get "backgroundImage" (ColorButton H p).button.sx ≠ some (.str "none") := by
  have h : Obj.get "backgroundImage" (ColorButton H p).button.sx = some (.str crosshatch) := by
    rw [ColorButton.button_sx, Obj.get_spread_of_not_mem _ _ _ hsx]
    simp [computedSx, Obj.get, herr]
  refine ⟨h, ?_⟩
  rw [h]
  simp [crosshatch]

/-- Witness for C1: an invalid colour, rendered with the default props. -/
theorem invalid_colour_gets_crosshatch_witness :
    (ColorButton.color (helpersReturning invalidColor)
        ({ color := .str "notacolor" } : ColorButtonProps Unit)).error = true
    ∧ Obj.get "backgroundImage"
        (ColorButton (helpersReturning invalidColor)
          ({ color := .str "notacolor" } : ColorButtonProps Unit)).button.sx
        = some (.str "\n      linear-gradient(45deg, #ccc 25%, transparent 25%), \n      linear-gradient(135deg, #ccc 25%, transparent 25%),\n      linear-gradient(45deg, transparent 75%, #ccc 75%),\n      linear-gradient(135deg, transparent 75%, #ccc 75%)") :=
  ⟨rfl, (invalid_colour_gets_crosshatch (helpersReturning invalidColor)
      ({ color := .str "notacolor" } : ColorButtonProps Unit) rfl (by decide)).1⟩

/-- C2: when `validateColor` returns a colour with `alpha < 1`, whatever its error flag,
and `sx` supplies no `backgroundImage` key, the style of the button has the
four-gradient crosshatch of lines 57-61 as its `backgroundImage` and not `none`. -/
theorem translucent_colour_gets_crosshatch {σ : Type} (H : Helpers) (p : ColorButtonProps σ)
    (halpha : (ColorButton.color H p).alpha < 1)
    (hsx : "backgroundImage" ∉ Obj.keys (p.sx.getD [])) :
    Obj.get "backgroundImage" (ColorButton H p).button.sx
      = some (.str "\n      linear-gradient(45deg, #ccc 25%, transparent 25%), \n      linear-gradient(135deg, #ccc 25%, transparent 25%),\n      linear-gradient(45deg, transparent 75%, #ccc 75%),\n      linear-gradient(135deg, transparent 75%, #ccc 75%)")
    ∧ Obj.get "backgroundImage" (ColorButton H p).button.sx ≠ some (.str "none") := by
  have h : Obj.get "backgroundImage" (ColorButton H p).button.sx = some (.str crosshatch) := by
    rw [ColorButton.button_sx, Obj.get_spread_of_not_mem _ _ _ hsx]
    simp [computedSx, Obj.get, halpha]
  refine ⟨h, ?_⟩
  rw [h]
  simp [crosshatch]

/-- Witness for C2: a valid colour with alpha 1/2 and a tooltip. -/
theorem translucent_colour_gets_crosshatch_witness :
    (ColorButton.color (helpersReturning halfRed)
        ({ color := .str "rgba(255, 0, 0, 0.5)", tooltip := some "red" } :
          ColorButtonProps Unit)).error = false
    ∧ Obj.get "backgroundImage"
        (ColorButton (helpersReturning halfRed)
          ({ color := .str "rgba(255, 0, 0, 0.5)", tooltip := some "red" } :
            ColorButtonProps Unit)).button.sx
        = some (.str "\n      linear-gradient(45deg, #ccc 25%, transparent 25%), \n      linear-gradient(135deg, #ccc 25%, transparent 25%),\n      linear-gradient(45deg, transparent 75%, #ccc 75%),\n      linear-gradient(135deg, transparent 75%, #ccc 75%)") :=
  ⟨rfl, (translucent_colour_gets_crosshatch (helpersReturning halfRed)
      ({ color := .str "rgba(255, 0, 0, 0.5)", tooltip := some "red" } :
        ColorButtonProps Unit)
      (by norm_num [ColorButton.color, helpersReturning, halfRed]) (by decide)).1⟩

/-- C3, as stated, fails: a valid opaque colour whose CSS value is the empty string is
rendered on `#fff`, which is not its CSS value. -/
theorem empty_css_value_renders_white :
    (ColorButton.color (helpersReturning emptyCssColor)
        ({ color := .obj [("css", .obj [("backgroundColor", .str "")]), ("alpha", .num 1)] } :
          ColorButtonProps Unit)).error = false
    ∧ (ColorButton.color (helpersReturning emptyCssColor)
        ({ color := .obj [("css", .obj [("backgroundColor", .str "")]), ("alpha", .num 1)] } :
          ColorButtonProps Unit)).alpha = 1
    ∧ Obj.get "backgroundColor"
        (ColorButton (helpersReturning emptyCssColor)
          ({ color := .obj [("css", .obj [("backgroundColor", .str "")]), ("alpha", .num 1)] } :
            ColorButtonProps Unit)).button.sx = some (.str "#fff")
    ∧ Obj.get "backgroundColor"
        (ColorButton (helpersReturning emptyCssColor)
          ({ color := .obj [("css", .obj [("backgroundColor", .str "")]), ("alpha", .num 1)] } :
            ColorButtonProps Unit)).button.sx
        ≠ some (ColorButton.color (helpersReturning emptyCssColor)
            ({ color := .obj [("css", .obj [("backgroundColor", .str "")]), ("alpha", .num 1)] } :
              ColorButtonProps Unit)).css.backgroundColor := by
  refine ⟨rfl, rfl, ?_, ?_⟩
  · simp [ColorButton.button_sx, Obj.spread, computedSx, Obj.get, jsOr, truthy,
      ColorButton.color, helpersReturning, emptyCssColor]
  · simp [ColorButton.button_sx, Obj.spread, computedSx, Obj.get, jsOr, truthy,
      ColorButton.color, helpersReturning, emptyCssColor]

/-- C3, amended: for a valid opaque colour (error false, alpha 1), with no
`backgroundColor`, `backgroundImage` or `& div` key supplied through `sx`, the
`backgroundImage` is `none`, and the `backgroundColor` of the button and of its inner
div both equal `color.css.backgroundColor` when that value is truthy (a non-empty
string), and `#fff` when it is not. -/
theorem valid_opaque_colour_background {σ : Type} (H : Helpers) (p : ColorButtonProps σ)
    (herr : (ColorButton.color H p).error = false)
    (halpha : (ColorButton.color H p).alpha = 1)
    (hbg : "backgroundColor" ∉ Obj.keys (p.sx.getD []))
    (himg : "backgroundImage" ∉ Obj.keys (p.sx.getD []))
    (hdiv : "& div" ∉ Obj.keys (p.sx.getD [])) :
    Obj.get "backgroundImage" (ColorButton H p).button.sx = some (.str "none")
    ∧ (truthy (ColorButton.color H p).css.backgroundColor = true →
        Obj.get "backgroundColor" (ColorButton H p).button.sx
            = some (ColorButton.color H p).css.backgroundColor
        ∧ Obj.get "backgroundColor" (innerDiv (ColorButton H p).button.sx)
            = some (ColorButton.color H p).css.backgroundColor)
    ∧ (truthy (ColorButton.color H p).css.backgroundColor = false →
        Obj.get "backgroundColor" (ColorButton H p).button.sx = some (.str "#fff")
        ∧ Obj.get "backgroundColor" (innerDiv (ColorButton H p).button.sx)
            = some (.str "#fff")) := by
  refine ⟨?_, fun ht => ⟨?_, ?_⟩, fun ht => ⟨?_, ?_⟩⟩
  · rw [ColorButton.button_sx, Obj.get_spread_of_not_mem _ _ _ himg]
    simp [computedSx, Obj.get, herr, halpha]
  · rw [ColorButton.button_sx, Obj.get_spread_of_not_mem _ _ _ hbg]
    simp [computedSx, Obj.get, jsOr, ht]
  · rw [innerDiv, ColorButton.button_sx, Obj.get_spread_of_not_mem _ _ _ hdiv]
    simp [computedSx, Obj.get, jsOr, ht, herr]
  · rw [ColorButton.button_sx, Obj.get_spread_of_not_mem _ _ _ hbg]
    simp [computedSx, Obj.get, jsOr, ht]
  · rw [innerDiv, ColorButton.button_sx, Obj.get_spread_of_not_mem _ _ _ hdiv]
    simp [computedSx, Obj.get, jsOr, ht, herr]

/-- Witness for C3 amended: `red`, rendered by a palette-style button. -/
theorem valid_opaque_colour_background_witness :
    Obj.get "backgroundImage"
        (ColorButton (helpersReturning opaqueRed)
          ({ color := .str "red", sx := some [("m", .str "0 8px 8px 0"), ("p", .num 0)] } :
            ColorButtonProps Unit)).button.sx = some (.str "none")
    ∧ Obj.get "backgroundColor"
        (ColorButton (helpersReturning opaqueRed)
          ({ color := .str "red", sx := some [("m", .str "0 8px 8px 0"), ("p", .num 0)] } :
            ColorButtonProps Unit)).button.sx = some (.str "red")
    ∧ Obj.get "backgroundColor"
        (innerDiv (ColorButton (helpersReturning opaqueRed)
          ({ color := .str "red", sx := some [("m", .str "0 8px 8px 0"), ("p", .num 0)] } :
            ColorButtonProps Unit)).button.sx) = some (.str "red") :=
  have h := valid_opaque_colour_background (helpersReturning opaqueRed)
      ({ color := .str "red", sx := some [("m", .str "0 8px 8px 0"), ("p", .num 0)] } :
        ColorButtonProps Unit) rfl rfl (by decide) (by decide) (by decide)
  ⟨h.1, (h.2.1 (by decide)).1, (h.2.1 (by decide)).2⟩

/-- C6, as stated, fails: for a colour with `error = true` whose CSS value is a
non-empty string, the `backgroundColor` of the button is that very CSS value. -/
theorem invalid_colour_button_keeps_css_value :
    (ColorButton.color (helpersReturning invalidColor)
        ({ color := .str "notacolor" } : ColorButtonProps Unit)).error = true
    ∧ Obj.get "backgroundColor"
        (ColorButton (helpersReturning invalidColor)
          ({ color := .str "notacolor" } : ColorButtonProps Unit)).button.sx
        = some (ColorButton.color (helpersReturning invalidColor)
            ({ color := .str "notacolor" } : ColorButtonProps Unit)).css.backgroundColor := by
  refine ⟨rfl, ?_⟩
  simp [ColorButton.button_sx, Obj.spread, computedSx, Obj.get, jsOr, truthy,
    ColorButton.color, helpersReturning, invalidColor]

/-- C6, amended: for a colour with `error = true`, with no `& div` or `backgroundColor`
key supplied through `sx`, the inner div has `backgroundColor` `transparent` and the
red repeating stripe as its `background`; the `backgroundColor` of the button itself
is `color.css.backgroundColor || "#fff"`, that is the CSS value of the colour whenever
that value is truthy. -/
theorem invalid_colour_inner_div_pattern {σ : Type} (H : Helpers) (p : ColorButtonProps σ)
    (herr : (ColorButton.color H p).error = true)
    (hdiv : "& div" ∉ Obj.keys (p.sx.getD []))
    (hbg : "backgroundColor" ∉ Obj.keys (p.sx.getD [])) :
    Obj.get "backgroundColor" (innerDiv (ColorButton H p).button.sx)
        = some (.str "transparent")
    ∧ Obj.get "background" (innerDiv (ColorButton H p).button.sx)
        = some (.str (errorStripes H.frac (p.size.getD 24)))
    ∧ Obj.get "backgroundColor" (ColorButton H p).button.sx
        = some (jsOr (ColorButton.color H p).css.backgroundColor (.str "#fff"))
    ∧ (truthy (ColorButton.color H p).css.backgroundColor = true →
        Obj.get "backgroundColor" (ColorButton H p).button.sx
          = some (ColorButton.color H p).css.backgroundColor) := by
  have hd : innerDiv (ColorButton H p).button.sx =
      innerDiv (computedSx H.frac (ColorButton.color H p) (p.size.getD 24)
        (p.borderWidth.getD 0) p.borderColor) := by
    rw [innerDiv, innerDiv, ColorButton.button_sx, Obj.get_spread_of_not_mem _ _ _ hdiv]
  have hb : Obj.get "backgroundColor" (ColorButton H p).button.sx
      = some (jsOr (ColorButton.color H p).css.backgroundColor (.str "#fff")) := by
    rw [ColorButton.button_sx, Obj.get_spread_of_not_mem _ _ _ hbg]
    simp [computedSx, Obj.get]
  refine ⟨?_, ?_, hb, fun ht => ?_⟩
  · rw [hd]
    simp [innerDiv, computedSx, Obj.get, herr]
  · rw [hd]
    simp [innerDiv, computedSx, Obj.get, herr]
  · rw [hb]
    simp [jsOr, ht]

/-- Witness for C6 amended: an invalid colour at the default size 24, whose stripes
run from 14px to 16px. -/
theorem invalid_colour_inner_div_pattern_witness :
    Obj.get "backgroundColor"
        (innerDiv (ColorButton (helpersReturning invalidColor)
          ({ color := .str "notacolor" } : ColorButtonProps Unit)).button.sx)
        = some (.str "transparent")
    ∧ Obj.get "background"
        (innerDiv (ColorButton (helpersReturning invalidColor)
          ({ color := .str "notacolor" } : ColorButtonProps Unit)).button.sx)
        = some (.str "repeating-linear-gradient(\n        135deg,\n        transparent,\n        transparent 14px,\n        #f44336 14px,\n        #f44336 16px\n      )") := by
  have h := invalid_colour_inner_div_pattern (helpersReturning invalidColor)
      ({ color := .str "notacolor" } : ColorButtonProps Unit) rfl (by decide) (by decide)
  have r12 : roundDouble (12 : ℚ) = 12 := by simpa using roundDouble_int 12 (by norm_num)
  have r14 : roundDouble (14 : ℚ) = 14 := by simpa using roundDouble_int 14 (by norm_num)
  have r16 : roundDouble (16 : ℚ) = 16 := by simpa using roundDouble_int 16 (by norm_num)
  have e12 : (24 : ℚ) / 2 = 12 := by norm_num
  have e14 : (12 : ℚ) + 2 = 14 := by norm_num
  have e16 : (12 : ℚ) + 4 = 16 := by norm_num
  have h1 : jsAdd (jsDiv 24 2) 2 = 14 := by
    unfold jsAdd jsDiv
    rw [e12, r12, e14, r14]
  have h2 : jsAdd (jsDiv 24 2) 4 = 16 := by
    unfold jsAdd jsDiv
    rw [e12, r12, e16, r16]
  have hs : errorStripes (helpersReturning invalidColor).frac 24 = "repeating-linear-gradient(\n        135deg,\n        transparent,\n        transparent 14px,\n        #f44336 14px,\n        #f44336 16px\n      )" := by
    simp only [errorStripes, h1, h2]
    decide
  refine ⟨h.1, ?_⟩
  rw [h.2.1]
  exact congrArg (fun s => some (JSVal.str s)) hs

/-- C7, as stated, fails: with `borderWidth = 0` an invalid colour still gives the
inner div a border of width 2px. -/
theorem invalid_colour_has_border_despite_zero_width :
    (ColorButton.color (helpersReturning invalidColor)
        ({ color := .str "notacolor", borderWidth := some 0 } :
          ColorButtonProps Unit)).error = true
    ∧ Obj.get "border"
        (innerDiv (ColorButton (helpersReturning invalidColor)
          ({ color := .str "notacolor", borderWidth := some 0 } :
            ColorButtonProps Unit)).button.sx)
        = some (.str "2px solid #f44336") := by
  refine ⟨rfl, ?_⟩
  simp [innerDiv, ColorButton.button_sx, Obj.spread, computedSx, Obj.get,
    ColorButton.color, helpersReturning, invalidColor]

/-- C7, amended: with `borderWidth = 0` or omitted, and no `borderWidth` or `& div` key
supplied through `sx`, the `borderWidth` of the button is 0 for every colour and every
borderColor; the border of the inner div has width 0 (`0px solid <borderColor>`) when
the colour is valid, and is the 2px red error border when the colour has
`error = true`. -/
theorem zero_border_width_not_displayed {σ : Type} (H : Helpers) (p : ColorButtonProps σ)
    (hbw : p.borderWidth = some 0 ∨ p.borderWidth = none)
    (hkey : "borderWidth" ∉ Obj.keys (p.sx.getD []))
    (hdiv : "& div" ∉ Obj.keys (p.sx.getD [])) :
    Obj.get "borderWidth" (ColorButton H p).button.sx = some (.num 0)
    ∧ ((ColorButton.color H p).error = false →
        Obj.get "border" (innerDiv (ColorButton H p).button.sx)
          = some (.str ("0px solid "
              ++ toStr H.frac (jsOr (ofOptStr p.borderColor) (.str "#767676")))))
    ∧ ((ColorButton.color H p).error = true →
        Obj.get "border" (innerDiv (ColorButton H p).button.sx)
          = some (.str "2px solid #f44336")) := by
  have hw : p.borderWidth.getD 0 = 0 := by
    rcases hbw with h | h <;> simp [h]
  have hd : innerDiv (ColorButton H p).button.sx =
      innerDiv (computedSx H.frac (ColorButton.color H p) (p.size.getD 24)
        (p.borderWidth.getD 0) p.borderColor) := by
    rw [innerDiv, innerDiv, ColorButton.button_sx, Obj.get_spread_of_not_mem _ _ _ hdiv]
  have hz : numToString H.frac 0 = "0" := by
    simp [numToString]
    rfl
  refine ⟨?_, fun herr => ?_, fun herr => ?_⟩
  · rw [ColorButton.button_sx, Obj.get_spread_of_not_mem _ _ _ hkey, hw]
    simp [computedSx, Obj.get, jsOr, truthy]
  · rw [hd, hw]
    simp [innerDiv, computedSx, Obj.get, herr, jsOr, truthy, toStr, hz]
  · rw [hd]
    simp [innerDiv, computedSx, Obj.get, herr]

/-- Witness for C7 amended: `red` with borderWidth 0 and borderColor `black`. -/
theorem zero_border_width_not_displayed_witness :
    Obj.get "borderWidth"
        (ColorButton (helpersReturning opaqueRed)
          ({ color := .str "red", borderWidth := some 0, borderColor := some "black" } :
            ColorButtonProps Unit)).button.sx = some (.num 0)
    ∧ Obj.get "border"
        (innerDiv (ColorButton (helpersReturning opaqueRed)
          ({ color := .str "red", borderWidth := some 0, borderColor := some "black" } :
            ColorButtonProps Unit)).button.sx) = some (.str "0px solid black") :=
  have h := zero_border_width_not_displayed (helpersReturning opaqueRed)
      ({ color := .str "red", borderWidth := some 0, borderColor := some "black" } :
        ColorButtonProps Unit) (Or.inl rfl) (by decide) (by decide)
  ⟨h.1, (h.2.1 rfl).trans (by simp [toStr, jsOr, ofOptStr, truthy])⟩

/-- C10: for a canonical colour with HSL triple (h, s, L) and alpha a, the hover shade is
`hsl(h, s%, l%, a)` with l = L - 10 when L >= 40 and l = L + 50 when L < 40, the
operators being those of the Number type (between 40 and 100 the subtraction is exact,
below 40 the sum is rounded by at most 2^-47); for 0 <= L <= 100 the hover lightness
lies between 30 and 90 and differs from L; and this shade is the `backgroundColor` of
the `&:hover div` rule of the button. -/
theorem hover_shade_lightness {σ : Type} (H : Helpers) (p : ColorButtonProps σ)
    (c : Color) (hc : ColorButton.color H p = c) (hL : IsDouble c.hsl.2.2) :
    hoverColor H.frac c =
        "hsl(" ++ numToString H.frac c.hsl.1 ++ ", " ++ numToString H.frac c.hsl.2.1 ++ "%, "
          ++ numToString H.frac
              (if c.hsl.2.2 < 40 then jsAdd c.hsl.2.2 50 else jsSub c.hsl.2.2 10)
          ++ "%, " ++ numToString H.frac c.alpha ++ ")"
    ∧ (40 ≤ c.hsl.2.2 → hoverLightness c.hsl.2.2 = jsSub c.hsl.2.2 10)
    ∧ (c.hsl.2.2 < 40 → hoverLightness c.hsl.2.2 = jsAdd c.hsl.2.2 50)
    ∧ (40 ≤ c.hsl.2.2 → c.hsl.2.2 ≤ 100 → jsSub c.hsl.2.2 10 = c.hsl.2.2 - 10)
    ∧ (0 ≤ c.hsl.2.2 → c.hsl.2.2 < 40 →
        |jsAdd c.hsl.2.2 50 - (c.hsl.2.2 + 50)| ≤ 2 ^ (-47 : ℤ))
    ∧ (0 ≤ c.hsl.2.2 → c.hsl.2.2 ≤ 100 →
        30 ≤ hoverLightness c.hsl.2.2 ∧ hoverLightness c.hsl.2.2 ≤ 90
          ∧ hoverLightness c.hsl.2.2 ≠ c.hsl.2.2)
    ∧ ("&:hover div" ∉ Obj.keys (p.sx.getD []) →
        Obj.get "&:hover div" (ColorButton H p).button.sx
          = some (.obj [("backgroundColor", .str (hoverColor H.frac c))])) := by
  have hl : hoverLightness c.hsl.2.2
      = if c.hsl.2.2 < 40 then jsAdd c.hsl.2.2 50 else jsSub c.hsl.2.2 10 := by
    by_cases h : c.hsl.2.2 < 40
    · rw [if_pos h, hoverLightness_of_lt _ hL h]
    · rw [if_neg h, hoverLightness_of_ge _ (not_lt.mp h)]
  refine ⟨?_, fun h => ?_, fun h => ?_, fun h40 h100 => ?_, fun h0 h => ?_,
    fun h0 h100 => ?_, fun hk => ?_⟩
  · rw [hoverColor, hl]
  · exact hoverLightness_of_ge _ h
  · exact hoverLightness_of_lt _ hL h
  · exact jsSub_ten_exact _ hL h40 h100
  · exact abs_jsAdd_fifty_sub_le _ h0 h
  · exact hoverLightness_bounds _ hL h0 h100
  · rw [ColorButton.button_sx, Obj.get_spread_of_not_mem _ _ _ hk, hc]
    simp [computedSx, Obj.get]

/-- Witness for C10: `red`, of lightness 50, hovers at `hsl(0, 100%, 40%, 1)`; the
greatest double below 40 hovers at lightness 90, the rounded sum. -/
theorem hover_shade_lightness_witness :
    Obj.get "&:hover div"
        (ColorButton (helpersReturning opaqueRed)
          ({ color := .str "red" } : ColorButtonProps Unit)).button.sx
        = some (.obj [("backgroundColor", .str "hsl(0, 100%, 40%, 1)")])
    ∧ (30 ≤ hoverLightness (50 : ℚ) ∧ hoverLightness (50 : ℚ) ≤ 90
        ∧ hoverLightness (50 : ℚ) ≠ 50)
    ∧ hoverLightness (40 - 2 ^ (-47 : ℤ)) = 90 := by
  have d50 : IsDouble (50 : ℚ) := by simpa using isDouble_int 50 (by norm_num)
  have d40 : IsDouble (40 - 2 ^ (-47 : ℤ) : ℚ) :=
    isDouble_of_representable
      ⟨40 * 2 ^ 47 - 1, -47, by norm_num, by norm_num, by norm_num⟩
      (by rw [abs_of_pos (by norm_num)]; norm_num)
  have hred := hover_shade_lightness (helpersReturning opaqueRed)
    ({ color := .str "red" } : ColorButtonProps Unit) opaqueRed rfl d50
  have hnear := hover_shade_lightness (helpersReturning nearlyFortyColor)
    ({ color := .str "#cc0000" } : ColorButtonProps Unit) nearlyFortyColor rfl d40
  have r40 : roundDouble (40 : ℚ) = 40 := by simpa using roundDouble_int 40 (by norm_num)
  have e40 : ((50 : ℚ) - 10) = 40 := by norm_num
  have l50 : hoverLightness (50 : ℚ) = 40 := by
    have h := hred.2.1 (by norm_num [opaqueRed])
    rw [show opaqueRed.hsl.2.2 = (50 : ℚ) from rfl] at h
    rw [h, jsSub, e40, r40]
  have hstr : hoverColor (helpersReturning opaqueRed).frac opaqueRed = "hsl(0, 100%, 40%, 1)" := by
    unfold hoverColor
    rw [show opaqueRed.hsl.2.2 = (50 : ℚ) from rfl, l50]
    decide
  refine ⟨?_, ?_, ?_⟩
  · rw [hred.2.2.2.2.2.2 (by decide), hstr]
  · exact hred.2.2.2.2.2.1 (by norm_num [opaqueRed]) (by norm_num [opaqueRed])
  · have h := hnear.2.2.1 (by norm_num [nearlyFortyColor])
    rw [show nearlyFortyColor.hsl.2.2 = (40 - 2 ^ (-47 : ℤ) : ℚ) from rfl] at h
    rw [h, jsAdd_pred_forty_fifty]

theorem Obj.get_of_mem_of_nodup (o : Obj) (hnd : (Obj.keys o).Nodup) (k : String)
    (v : JSVal) (h : (k, v) ∈ o) : Obj.get k o = some v := by
  induction o with
  | nil => simp at h
  | cons hd tl ih =>
    obtain ⟨k1, v1⟩ := hd
    simp only [Obj.keys, List.map_cons, List.nodup_cons] at hnd
    rcases List.mem_cons.mp h with h | h
    · have hk : k1 = k := (congrArg Prod.fst h).symm
      have hv : v1 = v := (congrArg Prod.snd h).symm
      simp [Obj.get, hk, hv]
    · have hne : ¬ k1 = k := by
        intro e
        apply hnd.1
        rw [e]
        exact List.mem_map.mpr ⟨(k, v), h, rfl⟩
      simp only [Obj.get, if_neg hne]
      exact ih hnd.2 h

theorem Obj.map_index_keys (o : Obj) (hnd : (Obj.keys o).Nodup) :
    (Obj.keys o).map (Obj.index o) = o.map Prod.snd := by
  have h : ∀ e ∈ o, Obj.index o e.1 = e.2 := by
    intro e he
    have := Obj.get_of_mem_of_nodup o hnd e.1 e.2 he
    simp [Obj.index, this]
  simp only [Obj.keys, List.map_map]
  exact List.map_congr_left h

theorem ColorButton.button_onClick {σ : Type} (H : Helpers) (p : ColorButtonProps σ) :
    (ColorButton H p).button.onClick = p.onClick := by
  unfold ColorButton
  by_cases h : truthy (ofOptStr p.tooltip) = true <;> simp [h, ButtonTree.button, ColorButton.component]

/-- C8: `ColorButton` returns the button inside a `Tooltip` of title `t(tooltip)` (and a
`Box`) exactly when the tooltip prop is a non-empty string, and the bare button when
the tooltip is undefined or the empty string; the button element does not depend on
the tooltip prop. -/
theorem tooltip_wraps_button_iff_nonempty {σ : Type} (H : Helpers)
    (p : ColorButtonProps σ) :
    ((ColorButton H p).isWrapped = true ↔ ∃ s, p.tooltip = some s ∧ s ≠ "")
    ∧ (∀ s, p.tooltip = some s → s ≠ "" →
        ColorButton H p = .tooltip (H.t (.str s)) "div" [("width", .str "min-content")]
          (ColorButton H p).button)
    ∧ (p.tooltip = none ∨ p.tooltip = some "" →
        ColorButton H p = .bare (ColorButton H p).button)
    ∧ (∀ tt, (ColorButton H { p with tooltip := tt }).button = (ColorButton H p).button) := by
  refine ⟨?_, ?_, ?_, ?_⟩
  · cases ht : p.tooltip with
    | none => simp [ColorButton, ht, ofOptStr, truthy, ButtonTree.isWrapped]
    | some s =>
      by_cases hs : s = ""
      · simp [ColorButton, ht, ofOptStr, truthy, ButtonTree.isWrapped, hs]
      · simp [ColorButton, ht, ofOptStr, truthy, ButtonTree.isWrapped, hs]
  · intro s ht hs
    simp [ColorButton, ht, ofOptStr, truthy, ButtonTree.button, hs]
  · intro h
    rcases h with ht | ht <;> simp [ColorButton, ht, ofOptStr, truthy, ButtonTree.button]
  · intro tt
    have e : ∀ q : ColorButtonProps σ, (ColorButton H q).button = ColorButton.component H q := by
      intro q
      unfold ColorButton
      by_cases h : truthy (ofOptStr q.tooltip) = true <;> simp [h, ButtonTree.button]
    rw [e, e]
    rfl

/-- Witness for C8: the tooltip `red` wraps the button, under the title `t("red")`. -/
theorem tooltip_wraps_button_iff_nonempty_witness :
    ColorButton (helpersReturning opaqueRed)
        ({ color := .str "red", tooltip := some "red" } : ColorButtonProps Unit)
      = .tooltip (.str "red") "div" [("width", .str "min-content")]
          (ColorButton (helpersReturning opaqueRed)
            ({ color := .str "red", tooltip := some "red" } : ColorButtonProps Unit)).button
    ∧ ColorButton (helpersReturning opaqueRed)
        ({ color := .str "red", tooltip := some "" } : ColorButtonProps Unit)
      = .bare (ColorButton (helpersReturning opaqueRed)
            ({ color := .str "red", tooltip := some "" } : ColorButtonProps Unit)).button :=
  ⟨(tooltip_wraps_button_iff_nonempty (helpersReturning opaqueRed)
      ({ color := .str "red", tooltip := some "red" } : ColorButtonProps Unit)).2.1
        "red" rfl (by decide),
   (tooltip_wraps_button_iff_nonempty (helpersReturning opaqueRed)
      ({ color := .str "red", tooltip := some "" } : ColorButtonProps Unit)).2.2.1
        (Or.inr rfl)⟩

/-- C5: for a palette with keys k1..kn, `ColorPalette` renders exactly n `ColorButton`s
in key order; the i-th has key ki, tooltip ki, color `palette[ki]` (the raw value of
the i-th entry) and the size, borderWidth and disableAlpha of the palette; an empty
palette renders no button. -/
theorem palette_renders_one_button_per_key {σ : Type} (H : Helpers)
    (p : ColorPaletteProps σ) :
    (ColorPalette H p).children.length = p.palette.length
    ∧ (ColorPalette H p).children.map
          (fun c => (c.key, c.props.tooltip, c.props.color, c.props.size,
            c.props.borderWidth, c.props.disableAlpha))
        = (Obj.keys p.palette).map
          (fun k => (k, some k, p.palette.index k, some (p.size.getD 24),
            some (p.borderWidth.getD 0), some (p.disableAlpha.getD false)))
    ∧ ((Obj.keys p.palette).Nodup →
        (ColorPalette H p).children.map (fun c => c.props.color) = p.palette.map Prod.snd)
    ∧ (∀ s w d, p.size = some s → p.borderWidth = some w → p.disableAlpha = some d →
        (ColorPalette H p).children.map
            (fun c => (c.props.size, c.props.borderWidth, c.props.disableAlpha))
          = (Obj.keys p.palette).map (fun _ => (some s, some w, some d)))
    ∧ (ColorPalette H { p with palette := [] }).children = [] := by
  refine ⟨?_, ?_, fun hnd => ?_, ?_, rfl⟩
  · simp [ColorPalette, Obj.keys]
  · simp [ColorPalette, List.map_map, Function.comp_def]
  · rw [← Obj.map_index_keys p.palette hnd]
    simp [ColorPalette, List.map_map, Function.comp_def]
  · intro s w d hs hw hd
    simp [ColorPalette, List.map_map, Function.comp_def, hs, hw, hd]

/-- Witness for C5: the two-colour palette renders `red` then `blue`, each with its
raw colour and with the size, borderWidth and disableAlpha of the palette. -/
theorem palette_renders_one_button_per_key_witness :
    (ColorPalette (helpersReturning opaqueRed)
        ({ palette := samplePalette, size := some 30, borderWidth := some 2,
           disableAlpha := some true } : ColorPaletteProps Unit)).children.map
          (fun c => c.props.color) = [.str "#f00", .num 255]
    ∧ (ColorPalette (helpersReturning opaqueRed)
        ({ palette := samplePalette, size := some 30, borderWidth := some 2,
           disableAlpha := some true } : ColorPaletteProps Unit)).children.map
          (fun c => (c.props.size, c.props.borderWidth, c.props.disableAlpha))
        = [(some 30, some 2, some true), (some 30, some 2, some true)]
    ∧ (ColorPalette (helpersReturning opaqueRed)
        ({ palette := samplePalette, size := some 30, borderWidth := some 2,
           disableAlpha := some true } : ColorPaletteProps Unit)).children.map
          (fun c => (c.key, c.props.tooltip))
        = [("red", some "red"), ("blue", some "blue")] :=
  ⟨(palette_renders_one_button_per_key (helpersReturning opaqueRed)
      ({ palette := samplePalette, size := some 30, borderWidth := some 2,
         disableAlpha := some true } : ColorPaletteProps Unit)).2.2.1 (by decide),
   (palette_renders_one_button_per_key (helpersReturning opaqueRed)
      ({ palette := samplePalette, size := some 30, borderWidth := some 2,
         disableAlpha := some true } : ColorPaletteProps Unit)).2.2.2.1 30 2 true rfl rfl rfl,
   rfl⟩

/-- C4: when an `onSelect` callback is provided, a click on the button rendered for a
key `name` of the palette has the effect of one call
`onSelect(t(name), palette[name])`, the second argument being the raw value stored
under that name. -/
theorem selecting_entry_invokes_onSelect_once {σ : Type} (H : Helpers)
    (p : ColorPaletteProps σ) (name : String) (hname : name ∈ Obj.keys p.palette)
    (onSelect : JSVal → JSVal → σ → σ) (hsel : p.onSelect = some onSelect) :
    (∃ c ∈ (ColorPalette H p).children, c.key = name)
    ∧ ∀ c ∈ (ColorPalette H p).children, c.key = name →
        ∀ s : σ, (c.render H).button.click s
          = onSelect (H.t (.str name)) (p.palette.index name) s := by
  constructor
  · simp only [ColorPalette, List.mem_map]
    exact ⟨_, ⟨name, hname, rfl⟩, rfl⟩
  · intro c hc hk s
    simp only [ColorPalette, List.mem_map] at hc
    obtain ⟨k, _, rfl⟩ := hc
    simp only at hk
    subst hk
    simp [PaletteChild.render, StyledButton.click, ColorButton.button_onClick,
      handleSelectColor, hsel]

/-- Witness for C4: with a recording callback, a click on `blue` records exactly one
call, with the translated name and the raw value 255. -/
theorem selecting_entry_invokes_onSelect_once_witness :
    ∃ c ∈ (ColorPalette (helpersReturning opaqueRed)
        ({ palette := samplePalette, onSelect := some recordCall } :
          ColorPaletteProps (List (JSVal × JSVal)))).children,
      c.key = "blue"
      ∧ (c.render (helpersReturning opaqueRed)).button.click []
          = [(.str "blue", .num 255)] := by
  have h := selecting_entry_invokes_onSelect_once (helpersReturning opaqueRed)
    ({ palette := samplePalette, onSelect := some recordCall } :
      ColorPaletteProps (List (JSVal × JSVal))) "blue" (by decide) recordCall rfl
  obtain ⟨c, hc, hk⟩ := h.1
  refine ⟨c, hc, hk, ?_⟩
  rw [h.2 c hc hk []]
  simp [recordCall, helpersReturning, samplePalette, Obj.index, Obj.get]

end MuiColor
